import Mathlib

/-!
# Verification of the ODIN integrity / backup / rollback core

This file is a shallow embedding, in Lean 4, of the algorithmic core of the
repository's project-integrity subsystem:

* `src/agents/shared/integrity.py` — semantic hashing, snapshot diffing
  (`compare_sih`), project fingerprint (`compute_project_hash`), and the
  `IntegrityMonitor` drift checker;
* `src/odin/backup.py` — `SmartBackupManager.create_backup`, `rollback_to`
  and `cleanup_old_backups`;
* `src/agents/system/checkpoint.py` — `CheckpointAgent._rollback` and
  `_cleanup_old_checkpoints`;
* `src/odin/instance.py` — `InstanceManager.release_lock` and
  `is_odin_running`.

Python `dict[str, str]` snapshots are modelled as insertion-ordered
association lists with distinct keys; machine-level hashing (`hashlib.sha256`)
is embedded as an executable SHA-256 over byte lists; filesystem-touching
operations are modelled as explicit state transformers over a name → content
map, with Boolean oracles standing for the success/failure of each fallible
I/O step, and as event traces where ordering matters.
-/

namespace Odin

/-! ## Snapshots (`dict[str, str]`) and sorting

`sorted(...)` in Python is embedded via Mathlib's `List.insertionSort`,
which produces the same sorted list (sortedness plus permutation plus
antisymmetry of the order determine the result uniquely). -/

/-- A Python `dict[str, str]` mapping relative paths to hex hashes,
modelled as an insertion-ordered association list. -/
abbrev SIH := List (String × String)

/-- The key view of a snapshot (`dict.keys()`). -/
def sihKeys (m : SIH) : List String := m.map Prod.fst

/-- Dictionary lookup `m[k]` (first binding wins, as in a dict with
distinct keys). -/
def sihGet (m : SIH) (k : String) : Option String := List.lookup k m

/-- Python's string comparison: lexicographic by code point, i.e. the
lexicographic order on the character lists. -/
def pyStrLe (s t : String) : Prop := s.data ≤ t.data

instance : DecidableRel pyStrLe := fun s t => inferInstanceAs (Decidable (s.data ≤ t.data))

instance : IsTotal String pyStrLe := ⟨fun a b => le_total a.data b.data⟩

instance : IsTrans String pyStrLe := ⟨fun _ _ _ h h' => le_trans h h'⟩

instance : IsAntisymm String pyStrLe :=
  ⟨fun a b h h' => by cases a; cases b; exact congrArg String.mk (le_antisymm h h')⟩

/-- Embedding of Python `sorted` on lists of strings (comparison by code
point; the result is the unique sorted permutation). -/
def sortStrings (l : List String) : List String :=
  l.insertionSort pyStrLe

/-- Result of `compare_sih` (`src/agents/shared/integrity.py:205`):
the four change classes, each returned as a sorted list. -/
structure DriftReport where
  added : List String
  removed : List String
  modified : List String
  unchanged : List String
deriving Repr, DecidableEq

/-- Embedding of `compare_sih(old_sih, new_sih)`
(`src/agents/shared/integrity.py:205-238`).

`old_files`/`new_files` are key sets; `added`/`removed` are set
differences, `common` the intersection, and each common key is classified
by comparing the two stored hashes.  Every class is returned
`sorted(...)`. -/
def compareSih (old new : SIH) : DriftReport :=
  let oldFiles := sihKeys old
  let newFiles := sihKeys new
  let added := newFiles.filter (fun k => !(decide (k ∈ oldFiles)))
  let removed := oldFiles.filter (fun k => !(decide (k ∈ newFiles)))
  let common := oldFiles.filter (fun k => decide (k ∈ newFiles))
  let modified := common.filter (fun f => !(decide (sihGet old f = sihGet new f)))
  let unchanged := common.filter (fun f => decide (sihGet old f = sihGet new f))
  { added := sortStrings added
    removed := sortStrings removed
    modified := sortStrings modified
    unchanged := sortStrings unchanged }

/-! ## SHA-256 (`hashlib.sha256(...).hexdigest()`)

Executable embedding of the SHA-256 function used by `sha256_bytes`
(`src/agents/shared/integrity.py:29-31`).  Words are `Nat`s reduced
modulo `2^32`; messages are byte lists. -/

/-- Truncate to a 32-bit word. -/
def u32 (n : Nat) : Nat := n % 4294967296

/-- 32-bit right rotation. -/
def rotr (n x : Nat) : Nat := u32 ((x >>> n) ||| (x <<< (32 - n)))

def bsig0 (x : Nat) : Nat := rotr 2 x ^^^ rotr 13 x ^^^ rotr 22 x
def bsig1 (x : Nat) : Nat := rotr 6 x ^^^ rotr 11 x ^^^ rotr 25 x
def ssig0 (x : Nat) : Nat := rotr 7 x ^^^ rotr 18 x ^^^ (x >>> 3)
def ssig1 (x : Nat) : Nat := rotr 17 x ^^^ rotr 19 x ^^^ (x >>> 10)
def chFn (x y z : Nat) : Nat := (x &&& y) ^^^ ((x ^^^ 4294967295) &&& z)
def majFn (x y z : Nat) : Nat := (x &&& y) ^^^ (x &&& z) ^^^ (y &&& z)

/-- The 64 SHA-256 round constants (decimal). -/
def sha256K : List Nat :=
  [1116352408, 1899447441, 3049323471, 3921009573, 961987163,
   1508970993, 2453635748, 2870763221, 3624381080, 310598401,
   607225278, 1426881987, 1925078388, 2162078206, 2614888103,
   3248222580, 3835390401, 4022224774, 264347078, 604807628,
   770255983, 1249150122, 1555081692, 1996064986, 2554220882,
   2821834349, 2952996808, 3210313671, 3336571891, 3584528711,
   113926993, 338241895, 666307205, 773529912, 1294757372,
   1396182291, 1695183700, 1986661051, 2177026350, 2456956037,
   2730485921, 2820302411, 3259730800, 3345764771, 3516065817,
   3600352804, 4094571909, 275423344, 430227734, 506948616,
   659060556, 883997877, 958139571, 1322822218, 1537002063,
   1747873779, 1955562222, 2024104815, 2227730452, 2361852424,
   2428436474, 2756734187, 3204031479, 3329325298]

/-- The SHA-256 initial hash state (decimal). -/
def sha256H0 : List Nat :=
  [1779033703, 3144134277,
   1013904242, 2773480762,
   1359893119, 2600822924,
   528734635, 1541459225]

/-- Big-endian byte decomposition of a `Nat` into `k` bytes. -/
def beBytes : Nat → Nat → List Nat
  | 0, _ => []
  | k + 1, n => (n >>> (8 * k)) % 256 :: beBytes k n

/-- SHA-256 message padding: append `0x80`, zero bytes up to 56 mod 64,
then the bit length as 8 big-endian bytes. -/
def padMessage (msg : List Nat) : List Nat :=
  let L := msg.length
  let zeros := (64 + 56 - ((L + 1) % 64)) % 64
  msg ++ [128] ++ List.replicate zeros 0 ++ beBytes 8 (8 * L)

/-- Group a byte list into big-endian 32-bit words. -/
def toWords : List Nat → List Nat
  | b0 :: b1 :: b2 :: b3 :: rest =>
    (b0 * 16777216 + b1 * 65536 + b2 * 256 + b3) :: toWords rest
  | _ => []

/-- Extend a 16-word block to the 64-entry message schedule. -/
def extendW : Nat → List Nat → List Nat
  | 0, w => w
  | n + 1, w =>
    let t := u32 (ssig1 (w.getD (w.length - 2) 0) + w.getD (w.length - 7) 0 +
      ssig0 (w.getD (w.length - 15) 0) + w.getD (w.length - 16) 0)
    extendW n (w ++ [t])

/-- One SHA-256 round, consuming one `(K, W)` pair. -/
def sha256Round (st : Nat × Nat × Nat × Nat × Nat × Nat × Nat × Nat)
    (kw : Nat × Nat) : Nat × Nat × Nat × Nat × Nat × Nat × Nat × Nat :=
  let (a, b, c, d, e, f, g, h) := st
  let t1 := u32 (h + bsig1 e + chFn e f g + kw.1 + kw.2)
  let t2 := u32 (bsig0 a + majFn a b c)
  (u32 (t1 + t2), a, b, c, u32 (d + t1), e, f, g)

/-- Compress one 64-byte block into the running hash state. -/
def compressBlock (h : List Nat) (block : List Nat) : List Nat :=
  let w := extendW 48 (toWords block)
  let st0 := (h.getD 0 0, h.getD 1 0, h.getD 2 0, h.getD 3 0,
              h.getD 4 0, h.getD 5 0, h.getD 6 0, h.getD 7 0)
  let (a, b, c, d, e, f, g, hh) := (sha256K.zip w).foldl sha256Round st0
  List.zipWith (fun x y => u32 (x + y)) h [a, b, c, d, e, f, g, hh]

/-- Process a padded message 64 bytes at a time (fuel-driven; any fuel at
least the byte count is sufficient). -/
def processChunks : Nat → List Nat → List Nat → List Nat
  | 0, h, _ => h
  | _ + 1, h, [] => h
  | fuel + 1, h, bytes => processChunks fuel (compressBlock h (bytes.take 64)) (bytes.drop 64)

/-- SHA-256 digest (32 bytes) of a byte-list message. -/
def sha256Digest (msg : List Nat) : List Nat :=
  let padded := padMessage msg
  let h := (processChunks (padded.length + 1) sha256H0 padded)
  (h.map (beBytes 4)).foldr (· ++ ·) []

/-- Hex digit character for a value below 16 (lower case, as
`hexdigest()` produces). -/
def hexDigit (n : Nat) : Char :=
  if n < 10 then Char.ofNat (48 + n) else Char.ofNat (87 + n)

/-- Hex string of a byte list. -/
def bytesToHex (bs : List Nat) : List Char :=
  bs.foldr (fun b acc => hexDigit (b / 16) :: hexDigit (b % 16) :: acc) []

/-- Embedding of `hashlib.sha256(data).hexdigest()`
(`sha256_bytes` in `src/agents/shared/integrity.py:29-31`). -/
def sha256Hex (msg : List Nat) : String :=
  ⟨bytesToHex (sha256Digest msg)⟩

/-- UTF-8 encoding of one character (Python `str.encode("utf-8")`). -/
def utf8Char (c : Char) : List Nat :=
  let n := c.toNat
  if n < 128 then [n]
  else if n < 2048 then [192 + n / 64, 128 + n % 64]
  else if n < 65536 then [224 + n / 4096, 128 + (n / 64) % 64, 128 + n % 64]
  else [240 + n / 262144, 128 + (n / 4096) % 64, 128 + (n / 64) % 64, 128 + n % 64]

/-- UTF-8 encoding of a string's character list. -/
def utf8Encode (l : List Char) : List Nat :=
  l.foldr (fun c acc => utf8Char c ++ acc) []

/-! ## `compute_project_hash` (`src/agents/shared/integrity.py:241-256`) -/

/-- Helper: a string is determined by its character list. -/
theorem pyString_ext {s t : String} (h : s.data = t.data) : s = t := by
  cases s; cases t; exact congrArg String.mk h

/-- Python's comparison on `(path, hash)` tuples: lexicographic, each
component compared by code point. -/
def pairLe (x y : String × String) : Prop :=
  x.1.data < y.1.data ∨ (x.1.data = y.1.data ∧ x.2.data ≤ y.2.data)

instance : DecidableRel pairLe :=
  fun _ _ => inferInstanceAs (Decidable (_ ∨ _ ∧ _))

instance : IsTotal (String × String) pairLe := by
  constructor
  intro x y
  rcases lt_trichotomy x.1.data y.1.data with h | h | h
  · exact Or.inl (Or.inl h)
  · rcases le_total x.2.data y.2.data with h2 | h2
    · exact Or.inl (Or.inr ⟨h, h2⟩)
    · exact Or.inr (Or.inr ⟨h.symm, h2⟩)
  · exact Or.inr (Or.inl h)

instance : IsTrans (String × String) pairLe := by
  constructor
  intro a b c hab hbc
  rcases hab with h1 | ⟨e1, le1⟩ <;> rcases hbc with h2 | ⟨e2, le2⟩
  · exact Or.inl (lt_trans h1 h2)
  · exact Or.inl (lt_of_lt_of_eq h1 e2)
  · exact Or.inl (lt_of_eq_of_lt e1 h2)
  · exact Or.inr ⟨e1.trans e2, le_trans le1 le2⟩

instance : IsAntisymm (String × String) pairLe := by
  constructor
  intro a b hab hba
  rcases hab with h1 | ⟨e1, le1⟩ <;> rcases hba with h2 | ⟨e2, le2⟩
  · exact absurd h2 (lt_asymm h1)
  · exact absurd (lt_of_lt_of_eq h1 e2) (lt_irrefl _)
  · exact absurd (lt_of_lt_of_eq h2 e1) (lt_irrefl _)
  · exact Prod.ext (pyString_ext e1) (pyString_ext (le_antisymm le1 le2))

/-- Embedding of `sorted(sih.items())`: the items sorted in Python tuple
order. -/
def sortPairs (l : List (String × String)) : List (String × String) :=
  l.insertionSort pairLe

/-- Embedding of `compute_project_hash(sih)`
(`src/agents/shared/integrity.py:241-256`): hash of the concatenation of
`"path:hash"` for the sorted items. -/
def computeProjectHash (sih : SIH) : String :=
  let combined := String.join ((sortPairs sih).map (fun p => p.1 ++ ":" ++ p.2))
  sha256Hex (utf8Encode combined.data)

/-- **C7.** `compute_project_hash` is invariant under any permutation of
the snapshot's insertion/iteration order: snapshots holding the same
`(path, hash)` items in any order produce the same combined hash, because
the items are sorted before concatenation. -/
theorem computeProjectHash_perm_invariant (l1 l2 : SIH) (h : l1.Perm l2) :
    computeProjectHash l1 = computeProjectHash l2 := by
  have hs : sortPairs l1 = sortPairs l2 :=
    List.eq_of_perm_of_sorted
      ((List.perm_insertionSort _ l1).trans (h.trans (List.perm_insertionSort _ l2).symm))
      (List.sorted_insertionSort _ l1) (List.sorted_insertionSort _ l2)
  simp only [computeProjectHash, hs]

/-- Witness for C7: the same two-entry snapshot in two insertion orders
hashes identically. -/
theorem computeProjectHash_perm_invariant_witness :
    computeProjectHash [("b.py", "h2"), ("a.py", "h1")] =
      computeProjectHash [("a.py", "h1"), ("b.py", "h2")] :=
  computeProjectHash_perm_invariant _ _ (by decide)

/-! ## Semantic normalizers (`src/agents/shared/integrity.py:71-100`)

`normalize_javascript` (and the identical `normalize_go`) is the regex
pipeline: strip `//` line comments, strip `/* ... */` block comments
(non-greedy, leftmost), collapse every whitespace run to a single space,
then strip leading/trailing whitespace.  Each `re.sub` is embedded as a
left-to-right scan with the same semantics. -/

/-- Python's `\s` on the ASCII range (space, tab, newline, carriage
return, vertical tab, form feed). -/
def isPySpace (c : Char) : Bool :=
  c = ' ' || c = '\t' || c = '\n' || c = '\r' || c = '\x0b' || c = '\x0c'

/-- Scanner for `re.sub(r'//.*$', '', source, flags=re.MULTILINE)`:
when the flag is `true` we are inside a line comment and drop characters
up to (but excluding) the next newline.  Fuel-driven; `length + 1` fuel is
sufficient since every step consumes at least one character. -/
def rlcAux : Nat → Bool → List Char → List Char
  | 0, _, l => l
  | _ + 1, _, [] => []
  | fuel + 1, true, c :: rest =>
    if c = '\n' then c :: rlcAux fuel false rest else rlcAux fuel true rest
  | fuel + 1, false, c :: rest =>
    if c = '/' then
      match rest with
      | c2 :: rest2 => if c2 = '/' then rlcAux fuel true rest2 else c :: rlcAux fuel false rest
      | [] => [c]
    else c :: rlcAux fuel false rest

/-- Removal of `//` line comments. -/
def removeLineComments (l : List Char) : List Char := rlcAux (l.length + 1) false l

/-- Find the first `*/` and return the suffix after it, if any. -/
def splitBlockEnd : List Char → Option (List Char)
  | [] => none
  | c :: rest =>
    if c = '*' then
      match rest with
      | c2 :: rest2 => if c2 = '/' then some rest2 else splitBlockEnd rest
      | [] => none
    else splitBlockEnd rest

/-- Scanner for `re.sub(r'/\*[\s\S]*?\*/', '', source)`: on `/*`, if a
closing `*/` exists the bracketed text is dropped and scanning resumes
after it; with no closing `*/` there is no match there or later, so the
rest is kept verbatim.  Fuel-driven; `length + 1` fuel is sufficient since
every step consumes at least one character. -/
def rbcAux : Nat → List Char → List Char
  | 0, l => l
  | _ + 1, [] => []
  | fuel + 1, c :: rest =>
    if c = '/' then
      match rest with
      | c2 :: rest2 =>
        if c2 = '*' then
          match splitBlockEnd rest2 with
          | some rest' => rbcAux fuel rest'
          | none => c :: c2 :: rest2
        else c :: rbcAux fuel rest
      | [] => [c]
    else c :: rbcAux fuel rest

/-- Removal of `/* ... */` block comments. -/
def removeBlockComments (l : List Char) : List Char := rbcAux (l.length + 1) l

/-- Scanner for `re.sub(r'\s+', ' ', source)`: the flag records whether
the previous character was part of a whitespace run already replaced by
one space. -/
def collapseAux : Bool → List Char → List Char
  | _, [] => []
  | inRun, c :: rest =>
    if isPySpace c then
      if inRun then collapseAux true rest else ' ' :: collapseAux true rest
    else c :: collapseAux false rest

/-- Whitespace-run collapsing. -/
def collapseWs (l : List Char) : List Char := collapseAux false l

/-- Python `str.strip()`: drop leading and trailing whitespace. -/
def pyStrip (l : List Char) : List Char :=
  ((l.dropWhile isPySpace).reverse.dropWhile isPySpace).reverse

/-- Embedding of `normalize_javascript` (= `normalize_go`)
(`src/agents/shared/integrity.py:71-100`). -/
def normalizeJavascript (l : List Char) : List Char :=
  pyStrip (collapseWs (removeBlockComments (removeLineComments l)))

/-- Embedding of `semantic_hash_file` for a `.js`/`.go` file whose content
decodes as UTF-8 (`src/agents/shared/integrity.py:103-147`): the SHA-256
hex digest of the UTF-8 encoding of the normalized content. -/
def semanticHashJs (content : List Char) : String :=
  sha256Hex (utf8Encode (normalizeJavascript content))

/-- "c1 and c2 differ only in whitespace": deleting every whitespace
character from both yields the same text. -/
def sameModuloWhitespace (c1 c2 : List Char) : Prop :=
  c1.filter (fun c => !isPySpace c) = c2.filter (fun c => !isPySpace c)

instance (c1 c2 : List Char) : Decidable (sameModuloWhitespace c1 c2) :=
  inferInstanceAs (Decidable (_ = _))

/-- Python `needle in hay` on strings: contiguous substring test. -/
def hasSubstr (needle : List Char) : List Char → Bool
  | [] => needle.isEmpty
  | c :: rest => needle.isPrefixOf (c :: rest) || hasSubstr needle rest

/-- The `//` line-comment marker. -/
def lineMarker : List Char := ['/', '/']

/-- The `/*` block-comment opening marker. -/
def blockMarker : List Char := ['/', '*']

/-- "The content contains a comment marker": an occurrence of `//` or of
`/*`.  Content without either is untouched by both comment-stripping
regexes (lone `/` characters — division operators, paths — are fine). -/
def hasCommentMarker (l : List Char) : Bool :=
  hasSubstr lineMarker l || hasSubstr blockMarker l

/-! ### Lemmas about the normalizer pipeline -/

theorem isPySpace_space : isPySpace ' ' = true := rfl

theorem rlcAux_eq_of_no_lineMarker :
    ∀ (fuel : Nat) (l : List Char), hasSubstr lineMarker l = false → rlcAux fuel false l = l := by
  intro fuel
  induction fuel with
  | zero => intro l _; rfl
  | succ n ih =>
    intro l h
    cases l with
    | nil => rfl
    | cons c rest =>
      simp only [hasSubstr, Bool.or_eq_false_iff] at h
      obtain ⟨hpre, htail⟩ := h
      by_cases hc : c = '/'
      · subst hc
        cases rest with
        | nil => rfl
        | cons c2 rest2 =>
          by_cases hc2 : c2 = '/'
          · subst hc2
            simp [lineMarker, List.isPrefixOf] at hpre
          · simp [rlcAux, hc2, ih _ htail]
      · simp [rlcAux, hc, ih rest htail]

theorem rbcAux_eq_of_no_blockMarker :
    ∀ (fuel : Nat) (l : List Char), hasSubstr blockMarker l = false → rbcAux fuel l = l := by
  intro fuel
  induction fuel with
  | zero => intro l _; rfl
  | succ n ih =>
    intro l h
    cases l with
    | nil => rfl
    | cons c rest =>
      simp only [hasSubstr, Bool.or_eq_false_iff] at h
      obtain ⟨hpre, htail⟩ := h
      by_cases hc : c = '/'
      · subst hc
        cases rest with
        | nil => rfl
        | cons c2 rest2 =>
          by_cases hc2 : c2 = '*'
          · subst hc2
            simp [blockMarker, List.isPrefixOf] at hpre
          · simp [rbcAux, hc2, ih _ htail]
      · simp [rbcAux, hc, ih rest htail]

theorem collapseAux_true_allspace :
    ∀ (w b : List Char), (∀ c ∈ w, isPySpace c = true) →
      collapseAux true (w ++ b) = collapseAux true b := by
  intro w
  induction w with
  | nil => intro b _; rfl
  | cons c w' ih =>
    intro b h
    have hc := h c (List.mem_cons_self ..)
    simp [collapseAux, hc, ih b fun d hd => h d (List.mem_cons_of_mem _ hd)]

theorem collapseAux_ws_run :
    ∀ (a : List Char) (st : Bool) (w b : List Char),
      (∀ c ∈ w, isPySpace c = true) → w ≠ [] →
      collapseAux st (a ++ (w ++ b)) = collapseAux st (a ++ (' ' :: b)) := by
  intro a
  induction a with
  | nil =>
    intro st w b hw hne
    cases w with
    | nil => exact absurd rfl hne
    | cons c w' =>
      have hc := hw c (List.mem_cons_self ..)
      have hw' := fun d hd => hw d (List.mem_cons_of_mem _ hd)
      cases st <;>
        simp [collapseAux, hc, isPySpace_space, collapseAux_true_allspace w' b hw']
  | cons c a' ih =>
    intro st w b hw hne
    by_cases hc : isPySpace c = true
    · cases st <;> simp [collapseAux, hc, ih true w b hw hne]
    · cases st <;> simp [collapseAux, hc, ih false w b hw hne, ih true w b hw hne]

/-- **C3, counterexample.** Two JavaScript contents that differ only in
whitespace (`"x=1"` versus `"x =1"`) receive different semantic hashes:
the regex normalizer collapses whitespace runs but does not erase
whitespace, so a whitespace-only edit that inserts a space between tokens
changes the hash, refuting the claim as stated. -/
theorem semanticHashJs_ws_only_counterexample :
    sameModuloWhitespace "x=1".data "x =1".data ∧
    "x=1".data ≠ "x =1".data ∧
    semanticHashJs "x=1".data ≠ semanticHashJs "x =1".data :=
  ⟨by decide, by decide, by decide⟩

/-- **C3, amended.** For content recognized by the regex normalizer
(JavaScript/Go) that contains no comment marker (no `//` and no `/*` —
lone `/` characters such as division operators are allowed), an edit that
only changes an existing nonempty whitespace run into another nonempty
whitespace run leaves the semantic hash unchanged; whitespace-only edits
in general (inserting whitespace between non-whitespace characters, or
deleting a run entirely) may change it. -/
theorem semanticHashJs_ws_run_invariant (a b w1 w2 : List Char)
    (hw1 : ∀ c ∈ w1, isPySpace c = true) (hw2 : ∀ c ∈ w2, isPySpace c = true)
    (hne1 : w1 ≠ []) (hne2 : w2 ≠ [])
    (hm1 : hasCommentMarker (a ++ w1 ++ b) = false)
    (hm2 : hasCommentMarker (a ++ w2 ++ b) = false) :
    semanticHashJs (a ++ w1 ++ b) = semanticHashJs (a ++ w2 ++ b) := by
  have key : ∀ (w : List Char), (∀ c ∈ w, isPySpace c = true) → w ≠ [] →
      hasCommentMarker (a ++ w ++ b) = false →
      normalizeJavascript (a ++ w ++ b) = pyStrip (collapseAux false (a ++ (' ' :: b))) := by
    intro w hw hne hm
    rw [hasCommentMarker, Bool.or_eq_false_iff] at hm
    obtain ⟨hlm, hbm⟩ := hm
    unfold normalizeJavascript removeLineComments removeBlockComments collapseWs
    rw [rlcAux_eq_of_no_lineMarker _ _ hlm, rbcAux_eq_of_no_blockMarker _ _ hbm,
      List.append_assoc, collapseAux_ws_run a false w b hw hne]
  unfold semanticHashJs
  rw [key w1 hw1 hne1 hm1, key w2 hw2 hne2 hm2]

/-- Witness for the amended C3 on content with a division slash but no
comment marker: shortening the run `"y=x/2  z=1" → "y=x/2 z=1"`
preserves the semantic hash. -/
theorem semanticHashJs_ws_run_invariant_witness :
    semanticHashJs "y=x/2 z=1".data = semanticHashJs "y=x/2  z=1".data := by
  have h := semanticHashJs_ws_run_invariant "y=x/2".data "z=1".data [' '] [' ', ' ']
    (by decide) (by decide) (by decide) (by decide) (by decide) (by decide)
  simpa using h

/-! ## IntegrityMonitor (`src/agents/shared/integrity.py:259-309`) -/

/-- The mutable state of an `IntegrityMonitor`: its optional baseline.
`None` is the `NO_BASELINE` state. -/
structure IntegrityMonitor where
  baseline : Option SIH
deriving Repr, DecidableEq

/-- Error message raised by `check_drift` with no baseline. -/
def noBaselineMsg : String := "No baseline captured. Call capture_baseline() first."

/-- Embedding of `IntegrityMonitor.capture_baseline`: rebuilds a snapshot
(the freshly built snapshot is passed in, standing for the `project_sih`
filesystem walk) and stores it. -/
def captureBaseline (_m : IntegrityMonitor) (current : SIH) :
    SIH × IntegrityMonitor :=
  (current, { baseline := some current })

/-- Embedding of `IntegrityMonitor.check_drift`
(`src/agents/shared/integrity.py:280-294`): raises `ValueError` when no
baseline is stored, otherwise diffs the fresh snapshot (passed in,
standing for the `project_sih` walk) against the stored baseline.  The
monitor state is returned unchanged: the method never assigns
`self._baseline`. -/
def checkDrift (m : IntegrityMonitor) (current : SIH) :
    Except String DriftReport × IntegrityMonitor :=
  match m.baseline with
  | none => (Except.error noBaselineMsg, m)
  | some b => (Except.ok (compareSih b current), m)

/-! ## Theorems about `compare_sih` and `check_drift` -/

theorem mem_sortStrings {k : String} {l : List String} :
    k ∈ sortStrings l ↔ k ∈ l :=
  List.mem_insertionSort _

theorem nodup_sortStrings {l : List String} (h : l.Nodup) :
    (sortStrings l).Nodup :=
  (List.perm_insertionSort _ l).nodup_iff.mpr h

theorem mem_compareSih_added {old new : SIH} {k : String} :
    k ∈ (compareSih old new).added ↔ k ∈ sihKeys new ∧ k ∉ sihKeys old := by
  simp [compareSih, mem_sortStrings, List.mem_filter]

theorem mem_compareSih_removed {old new : SIH} {k : String} :
    k ∈ (compareSih old new).removed ↔ k ∈ sihKeys old ∧ k ∉ sihKeys new := by
  simp [compareSih, mem_sortStrings, List.mem_filter]

theorem mem_compareSih_modified {old new : SIH} {k : String} :
    k ∈ (compareSih old new).modified ↔
      k ∈ sihKeys old ∧ k ∈ sihKeys new ∧ sihGet old k ≠ sihGet new k := by
  simp only [compareSih, mem_sortStrings, List.mem_filter, Bool.not_eq_true',
    decide_eq_false_iff_not, decide_eq_true_eq, and_assoc]

theorem mem_compareSih_unchanged {old new : SIH} {k : String} :
    k ∈ (compareSih old new).unchanged ↔
      k ∈ sihKeys old ∧ k ∈ sihKeys new ∧ sihGet old k = sihGet new k := by
  simp only [compareSih, mem_sortStrings, List.mem_filter,
    decide_eq_true_eq, and_assoc]

theorem compareSih_self_added (s : SIH) : (compareSih s s).added = [] := by
  refine List.eq_nil_iff_forall_not_mem.mpr fun k hk => ?_
  rw [mem_compareSih_added] at hk
  exact hk.2 hk.1

theorem compareSih_self_removed (s : SIH) : (compareSih s s).removed = [] := by
  refine List.eq_nil_iff_forall_not_mem.mpr fun k hk => ?_
  rw [mem_compareSih_removed] at hk
  exact hk.2 hk.1

theorem compareSih_self_modified (s : SIH) : (compareSih s s).modified = [] := by
  refine List.eq_nil_iff_forall_not_mem.mpr fun k hk => ?_
  rw [mem_compareSih_modified] at hk
  exact hk.2.2 rfl

/-- **C4.** `compare_sih(old, new)` returns four pairwise-disjoint classes
whose union is `keys(old) ∪ keys(new)`; `added` and `removed` are the key-set
differences; a common key is `modified` iff the stored hashes differ and
`unchanged` otherwise; each class lists each path at most once; and
`compare_sih(s, s)` has empty `added`, `removed` and `modified` for every
snapshot `s`. -/
theorem compareSih_partition_spec (old new : SIH)
    (hold : (sihKeys old).Nodup) (hnew : (sihKeys new).Nodup) :
    (∀ k, k ∈ (compareSih old new).added ↔ k ∈ sihKeys new ∧ k ∉ sihKeys old) ∧
    (∀ k, k ∈ (compareSih old new).removed ↔ k ∈ sihKeys old ∧ k ∉ sihKeys new) ∧
    (∀ k, k ∈ (compareSih old new).modified ↔
        k ∈ sihKeys old ∧ k ∈ sihKeys new ∧ sihGet old k ≠ sihGet new k) ∧
    (∀ k, k ∈ (compareSih old new).unchanged ↔
        k ∈ sihKeys old ∧ k ∈ sihKeys new ∧ sihGet old k = sihGet new k) ∧
    (∀ k, (k ∈ (compareSih old new).added ∨ k ∈ (compareSih old new).removed ∨
           k ∈ (compareSih old new).modified ∨ k ∈ (compareSih old new).unchanged) ↔
          (k ∈ sihKeys old ∨ k ∈ sihKeys new)) ∧
    (∀ k, ¬(k ∈ (compareSih old new).added ∧ k ∈ (compareSih old new).removed)) ∧
    (∀ k, ¬(k ∈ (compareSih old new).added ∧ k ∈ (compareSih old new).modified)) ∧
    (∀ k, ¬(k ∈ (compareSih old new).added ∧ k ∈ (compareSih old new).unchanged)) ∧
    (∀ k, ¬(k ∈ (compareSih old new).removed ∧ k ∈ (compareSih old new).modified)) ∧
    (∀ k, ¬(k ∈ (compareSih old new).removed ∧ k ∈ (compareSih old new).unchanged)) ∧
    (∀ k, ¬(k ∈ (compareSih old new).modified ∧ k ∈ (compareSih old new).unchanged)) ∧
    (compareSih old new).added.Nodup ∧ (compareSih old new).removed.Nodup ∧
    (compareSih old new).modified.Nodup ∧ (compareSih old new).unchanged.Nodup ∧
    (∀ s : SIH, (compareSih s s).added = [] ∧ (compareSih s s).removed = [] ∧
      (compareSih s s).modified = []) := by
  refine ⟨fun k => mem_compareSih_added, fun k => mem_compareSih_removed,
    fun k => mem_compareSih_modified, fun k => mem_compareSih_unchanged,
    ?_, ?_, ?_, ?_, ?_, ?_, ?_, ?_, ?_, ?_, ?_,
    fun s => ⟨compareSih_self_added s, compareSih_self_removed s, compareSih_self_modified s⟩⟩
  · intro k
    simp only [mem_compareSih_added, mem_compareSih_removed, mem_compareSih_modified,
      mem_compareSih_unchanged]
    by_cases ho : k ∈ sihKeys old <;> by_cases hn : k ∈ sihKeys new <;>
      by_cases he : sihGet old k = sihGet new k <;> tauto
  · intro k
    simp only [mem_compareSih_added, mem_compareSih_removed]; tauto
  · intro k
    simp only [mem_compareSih_added, mem_compareSih_modified]; tauto
  · intro k
    simp only [mem_compareSih_added, mem_compareSih_unchanged]; tauto
  · intro k
    simp only [mem_compareSih_removed, mem_compareSih_modified]; tauto
  · intro k
    simp only [mem_compareSih_removed, mem_compareSih_unchanged]; tauto
  · intro k
    simp only [mem_compareSih_modified, mem_compareSih_unchanged]; tauto
  · exact nodup_sortStrings (hnew.filter _)
  · exact nodup_sortStrings (hold.filter _)
  · exact nodup_sortStrings ((hold.filter _).filter _)
  · exact nodup_sortStrings ((hold.filter _).filter _)

/-- Witness for C4 at the spec's own example (scenario 2):
`A = {"a.py": "h1"}`, `B = {"a.py": "h1", "b.py": "h2"}`. -/
theorem compareSih_partition_spec_witness :
    (∀ k, k ∈ (compareSih [("a.py", "h1")] [("a.py", "h1"), ("b.py", "h2")]).added ↔
        k ∈ sihKeys [("a.py", "h1"), ("b.py", "h2")] ∧ k ∉ sihKeys [("a.py", "h1")]) ∧
    (compareSih [("a.py", "h1")] [("a.py", "h1"), ("b.py", "h2")]).added = ["b.py"] :=
  ⟨(compareSih_partition_spec [("a.py", "h1")] [("a.py", "h1"), ("b.py", "h2")]
      (by decide) (by decide)).1,
   by decide⟩

/-- **C8.** `check_drift` fails with the no-baseline error whenever no
baseline is stored; with a stored baseline it returns the diff of the
freshly built snapshot against that baseline; and in both cases the stored
baseline is left unchanged (checking never auto-updates it). -/
theorem checkDrift_spec (m : IntegrityMonitor) (current : SIH) :
    (m.baseline = none →
      checkDrift m current = (Except.error noBaselineMsg, m)) ∧
    (∀ b, m.baseline = some b →
      checkDrift m current = (Except.ok (compareSih b current), m)) ∧
    (checkDrift m current).2.baseline = m.baseline := by
  obtain ⟨b⟩ := m
  cases b <;> simp [checkDrift]

/-- Witness for C8: a monitor with no baseline errors out, one with a
baseline diffs against it; neither changes the stored baseline. -/
theorem checkDrift_spec_witness :
    checkDrift ⟨none⟩ [("a.py", "h1")] =
      (Except.error noBaselineMsg, (⟨none⟩ : IntegrityMonitor)) ∧
    checkDrift ⟨some [("a.py", "h1")]⟩ [("a.py", "h1")] =
      (Except.ok (compareSih [("a.py", "h1")] [("a.py", "h1")]),
        (⟨some [("a.py", "h1")]⟩ : IntegrityMonitor)) :=
  ⟨(checkDrift_spec ⟨none⟩ [("a.py", "h1")]).1 rfl,
   (checkDrift_spec ⟨some [("a.py", "h1")]⟩ [("a.py", "h1")]).2.1 _ rfl⟩

/-! ## Retention policy

`CheckpointAgent._cleanup_old_checkpoints`
(`src/agents/system/checkpoint.py:433-487`) and
`SmartBackupManager.cleanup_old_backups` (`src/odin/backup.py:621-651`).
A stored checkpoint is modelled by its directory id and its `created_at`
timestamp in seconds. -/

/-- Python `timedelta.days` of `cutoff - created`: floor division of the
second difference by 86400. -/
def ageDays (cutoff created : Int) : Int := (cutoff - created).fdiv 86400

/-- Ordering used by `checkpoints.sort(key=lambda x: x[1])`: by
`created_at`, oldest first. -/
def ckLe : (String × Int) → (String × Int) → Prop := fun x y => x.2 ≤ y.2

instance : DecidableRel ckLe := fun x y => inferInstanceAs (Decidable (x.2 ≤ y.2))

instance : IsTotal (String × Int) ckLe := ⟨fun a b => le_total a.2 b.2⟩

instance : IsTrans (String × Int) ckLe := ⟨fun _ _ _ h h' => le_trans h h'⟩

/-- Python's `l[:-k]`.  A negative stop index `-k` means `len(l) - k`,
except that `-0` *is* `0`, so `l[:-0] = l[:0] = []`. -/
def pySliceUptoNeg (l : List α) (k : Nat) : List α :=
  l.take (if k = 0 then 0 else l.length - k)

/-- Embedding of `CheckpointAgent._cleanup_old_checkpoints`
(`src/agents/system/checkpoint.py:433-487`): sort oldest-first, the
candidates are `checkpoints[:-keep_minimum]` when more than `keep_minimum`
exist, and among candidates exactly those strictly older than
`max_age_days` are deleted.  Returns the deleted records, the
`deleted_count`, and the `remaining_count`. -/
def cleanupOldCheckpoints (ckpts : List (String × Int)) (cutoff maxAgeDays : Int)
    (keepMin : Nat) : List (String × Int) × Nat × Nat :=
  let sorted := ckpts.insertionSort ckLe
  let toDelete := if sorted.length > keepMin then pySliceUptoNeg sorted keepMin else []
  let deleted := toDelete.filter (fun c => decide (ageDays cutoff c.2 > maxAgeDays))
  (deleted, deleted.length, ckpts.length - deleted.length)

/-- Embedding of `SmartBackupManager.cleanup_old_backups`
(`src/odin/backup.py:621-651`): `backups` is the `list_backups()` result
(newest first); with more than `keep_count` records the tail
`backups[keep_count:]` is removed file by file, counting the successful
`unlink`s.  Returns `removed_count`. -/
def cleanupOldBackups (backups : List String) (keep : Nat)
    (unlinkOk : String → Bool) : Nat :=
  if backups.length ≤ keep then 0
  else ((backups.drop keep).filter unlinkOk).length

theorem length_pySliceUptoNeg (l : List α) (k : Nat) :
    (pySliceUptoNeg l k).length + min k l.length ≤ l.length := by
  unfold pySliceUptoNeg
  by_cases h0 : k = 0
  · simp [h0]
  · rw [if_neg h0]
    simp only [List.length_take]
    omega

/-- **C5.** Retention never deletes below the keep floor: checkpoint
cleanup deletes only candidates outside the `keep_minimum` most recent
that are strictly older than `max_age_days`, so at least
`min keep_minimum total` records always remain; and the odin backup
cleanup (which has no age parameter) likewise keeps at least
`min keep_count total` records. -/
theorem cleanup_retention_spec (ckpts : List (String × Int)) (cutoff maxAgeDays : Int)
    (keepMin : Nat) (backups : List String) (keep : Nat) (unlinkOk : String → Bool) :
    (∀ p ∈ (cleanupOldCheckpoints ckpts cutoff maxAgeDays keepMin).1,
      ageDays cutoff p.2 > maxAgeDays) ∧
    (∀ p ∈ (cleanupOldCheckpoints ckpts cutoff maxAgeDays keepMin).1,
      p ∈ pySliceUptoNeg (ckpts.insertionSort ckLe) keepMin) ∧
    (cleanupOldCheckpoints ckpts cutoff maxAgeDays keepMin).2.1 + min keepMin ckpts.length ≤
      ckpts.length ∧
    (cleanupOldCheckpoints ckpts cutoff maxAgeDays keepMin).2.2 =
      ckpts.length - (cleanupOldCheckpoints ckpts cutoff maxAgeDays keepMin).2.1 ∧
    min keepMin ckpts.length ≤ (cleanupOldCheckpoints ckpts cutoff maxAgeDays keepMin).2.2 ∧
    cleanupOldBackups backups keep unlinkOk + min keep backups.length ≤ backups.length := by
  have hlen : (ckpts.insertionSort ckLe).length = ckpts.length :=
    (List.perm_insertionSort _ ckpts).length_eq
  have hmemdel : ∀ p ∈ (cleanupOldCheckpoints ckpts cutoff maxAgeDays keepMin).1,
      p ∈ pySliceUptoNeg (ckpts.insertionSort ckLe) keepMin ∧
        ageDays cutoff p.2 > maxAgeDays := by
    intro p hp
    have hp' : p ∈ (if (ckpts.insertionSort ckLe).length > keepMin then
        pySliceUptoNeg (ckpts.insertionSort ckLe) keepMin else []).filter
        (fun c => decide (ageDays cutoff c.2 > maxAgeDays)) := hp
    rcases List.mem_filter.mp hp' with ⟨hmem, hpred⟩
    refine ⟨?_, by simpa using hpred⟩
    by_cases hgt : (ckpts.insertionSort ckLe).length > keepMin
    · rwa [if_pos hgt] at hmem
    · rw [if_neg hgt] at hmem
      cases hmem
  have hcnt : (cleanupOldCheckpoints ckpts cutoff maxAgeDays keepMin).2.1 +
      min keepMin ckpts.length ≤ ckpts.length := by
    have hslice := length_pySliceUptoNeg (ckpts.insertionSort ckLe) keepMin
    rw [hlen] at hslice
    have hle : (cleanupOldCheckpoints ckpts cutoff maxAgeDays keepMin).2.1 ≤
        (pySliceUptoNeg (ckpts.insertionSort ckLe) keepMin).length ∨
        (cleanupOldCheckpoints ckpts cutoff maxAgeDays keepMin).2.1 = 0 := by
      show (List.filter _ _).length ≤ _ ∨ (List.filter _ _).length = 0
      by_cases hgt : (ckpts.insertionSort ckLe).length > keepMin
      · rw [if_pos hgt]
        exact Or.inl (List.length_filter_le _ _)
      · rw [if_neg hgt]
        exact Or.inr rfl
    rcases hle with h | h <;> omega
  have hrem : (cleanupOldCheckpoints ckpts cutoff maxAgeDays keepMin).2.2 =
      ckpts.length - (cleanupOldCheckpoints ckpts cutoff maxAgeDays keepMin).2.1 := rfl
  refine ⟨fun p hp => (hmemdel p hp).2, fun p hp => (hmemdel p hp).1, hcnt, hrem, ?_, ?_⟩
  · omega
  · unfold cleanupOldBackups
    by_cases hle : backups.length ≤ keep
    · rw [if_pos hle]
      omega
    · rw [if_neg hle]
      have h1 : ((backups.drop keep).filter unlinkOk).length ≤ (backups.drop keep).length :=
        List.length_filter_le _ _
      have h2 : (backups.drop keep).length = backups.length - keep := List.length_drop _ _
      omega

/-- Witness for C5 at a concrete store: two checkpoints, keep floor 5 —
the deleted count plus the floor never exceeds the total. -/
theorem cleanup_retention_spec_witness :
    (cleanupOldCheckpoints [("c0", 0), ("c1", 86400)] 1036800 7 5).2.1 +
      min 5 ([("c0", (0 : Int)), ("c1", 86400)] : List (String × Int)).length ≤
      ([("c0", (0 : Int)), ("c1", 86400)] : List (String × Int)).length :=
  (cleanup_retention_spec [("c0", 0), ("c1", 86400)] 1036800 7 5 ["b"] 10
    (fun _ => true)).2.2.1

/-- **C9.** With `keep_minimum = 0` and a non-empty checkpoint store, the
candidate slice is `checkpoints[:-0] = []`, so cleanup deletes nothing and
reports `deleted_count = 0` and `remaining_count = total`, whatever
`max_age_days` and the checkpoint ages are. -/
theorem cleanup_keepMin_zero (ckpts : List (String × Int)) (cutoff maxAgeDays : Int)
    (h : ckpts ≠ []) :
    (cleanupOldCheckpoints ckpts cutoff maxAgeDays 0).1 = [] ∧
    (cleanupOldCheckpoints ckpts cutoff maxAgeDays 0).2.1 = 0 ∧
    (cleanupOldCheckpoints ckpts cutoff maxAgeDays 0).2.2 = ckpts.length := by
  have hpos : (ckpts.insertionSort ckLe).length > 0 := by
    rw [(List.perm_insertionSort _ ckpts).length_eq]
    exact List.length_pos.mpr h
  simp [cleanupOldCheckpoints, pySliceUptoNeg, hpos]

/-- Witness for C9: two ancient checkpoints, `max_age_days = 7`,
`keep_minimum = 0`: nothing is deleted. -/
theorem cleanup_keepMin_zero_witness :
    (cleanupOldCheckpoints [("ck1", 0), ("ck2", 86400)] 1000000000 7 0).1 = [] ∧
    (cleanupOldCheckpoints [("ck1", 0), ("ck2", 86400)] 1000000000 7 0).2.1 = 0 ∧
    (cleanupOldCheckpoints [("ck1", 0), ("ck2", 86400)] 1000000000 7 0).2.2 = 2 :=
  cleanup_keepMin_zero [("ck1", 0), ("ck2", 86400)] 1000000000 7 (by decide)

/-! ## Filesystem model

A flat map from file names to contents, used to embed the
filesystem-touching operations of `src/odin/instance.py` and
`src/odin/backup.py`. -/

/-- A filesystem: name → content, first binding wins. -/
abbrev FS := List (String × String)

/-- Read a file (`None` = file does not exist). -/
def fsGet (fs : FS) (n : String) : Option String := List.lookup n fs

/-- Delete every binding of a name (`unlink`). -/
def fsDel (fs : FS) (n : String) : FS := fs.filter (fun p => !(p.1 == n))

/-- Create or overwrite a file (`open(..., "w")` + write). -/
def fsSet (fs : FS) (n c : String) : FS := (n, c) :: fsDel fs n

/-- File existence check (`Path.exists`). -/
def fsHas (fs : FS) (n : String) : Bool := (fsGet fs n).isSome

theorem fsGet_fsDel_same (fs : FS) (n : String) : fsGet (fsDel fs n) n = none := by
  induction fs with
  | nil => rfl
  | cons p rest ih =>
    by_cases h : p.1 = n
    · simpa [fsDel, fsGet, List.filter_cons, h] using ih
    · have e1 : (n == p.1) = false := beq_eq_false_iff_ne.mpr fun he => h he.symm
      have e2 : (p.1 == n) = false := beq_eq_false_iff_ne.mpr h
      simpa [fsDel, fsGet, List.filter_cons, List.lookup, e1, e2] using ih

theorem fsGet_fsDel_other (fs : FS) (n m : String) (h : m ≠ n) :
    fsGet (fsDel fs n) m = fsGet fs m := by
  induction fs with
  | nil => rfl
  | cons p rest ih =>
    by_cases hp : p.1 = n
    · have e1 : (p.1 == n) = true := beq_iff_eq.mpr hp
      have e2 : (m == p.1) = false := beq_eq_false_iff_ne.mpr (hp ▸ h)
      simpa [fsDel, fsGet, List.filter_cons, List.lookup, e1, e2] using ih
    · have e1 : (p.1 == n) = false := beq_eq_false_iff_ne.mpr hp
      by_cases hm : m = p.1
      · have e2 : (m == p.1) = true := beq_iff_eq.mpr hm
        simp [fsDel, fsGet, List.filter_cons, List.lookup, e1, e2]
      · have e2 : (m == p.1) = false := beq_eq_false_iff_ne.mpr hm
        simpa [fsDel, fsGet, List.filter_cons, List.lookup, e1, e2] using ih

theorem fsGet_fsSet_same (fs : FS) (n c : String) : fsGet (fsSet fs n c) n = some c := by
  show List.lookup n ((n, c) :: _) = some c
  simp [List.lookup]

theorem fsGet_fsSet_other (fs : FS) (n c m : String) (h : m ≠ n) :
    fsGet (fsSet fs n c) m = fsGet fs m := by
  show List.lookup m ((n, c) :: fsDel fs n) = _
  simp only [List.lookup, beq_eq_false_iff_ne.mpr h]
  exact fsGet_fsDel_other fs n m h

/-! ## Instance lock (`src/odin/instance.py`) -/

/-- ASCII lower-casing, as `str.lower()` acts on the ASCII range. -/
def pyToLower (c : Char) : Char :=
  if 65 ≤ c.toNat ∧ c.toNat ≤ 90 then Char.ofNat (c.toNat + 32) else c

/-- Parse of Python `int(s)` on an already-stripped string: an optional
sign followed by at least one ASCII digit. -/
def parseNatDigits (l : List Char) : Option Nat :=
  if l.isEmpty then none
  else if l.all (fun c => c.isDigit) then
    some (l.foldl (fun acc c => 10 * acc + (c.toNat - 48)) 0)
  else none

/-- Python `int(pid_data)` (success cases of interest; failure is
`ValueError`). -/
def pyParseInt (l : List Char) : Option Int :=
  match l with
  | '-' :: rest => (parseNatDigits rest).map (fun n => -(n : Int))
  | '+' :: rest => (parseNatDigits rest).map Int.ofNat
  | _ => (parseNatDigits l).map Int.ofNat

/-- The visible process table: `pidExists` is `psutil.pid_exists`;
`cmdline pid` is `' '.join(psutil.Process(pid).cmdline())`, with `none`
when `psutil` raises (`NoSuchProcess` / `AccessDenied`). -/
structure ProcWorld where
  pidExists : Int → Bool
  cmdline : Int → Option (List Char)

/-- Embedding of `InstanceManager.is_odin_running`
(`src/odin/instance.py:36-73`), returning the result and the filesystem
afterwards.  Control flow mirrors the source: a missing lock file returns
`False`; an *empty* (after strip) lock file returns `False` from inside
the `with` block, skipping the stale-lock cleanup; every other
not-a-live-odin outcome (unparsable PID, dead PID, inaccessible process,
command line without "odin") falls through to the cleanup that deletes
the lock file; a live odin process returns `True` with the file kept. -/
def isOdinRunning (fs : FS) (lockPath : String) (w : ProcWorld) : Bool × FS :=
  match fsGet fs lockPath with
  | none => (false, fs)
  | some content =>
    let pidData := pyStrip content.data
    if pidData.isEmpty then (false, fs)
    else
      match pyParseInt pidData with
      | none => (false, fsDel fs lockPath)
      | some pid =>
        if w.pidExists pid then
          match w.cmdline pid with
          | none => (false, fsDel fs lockPath)
          | some cmd =>
            if hasSubstr "odin".data (cmd.map pyToLower) then (true, fs)
            else (false, fsDel fs lockPath)
        else (false, fsDel fs lockPath)

/-- Embedding of `InstanceManager.release_lock`
(`src/odin/instance.py:163-177`): if the lock file exists it is unlinked
— with *no* check of which process the file names; any exception is
swallowed.  `curPid` (the calling process id, which the source could
consult via `os.getpid()` but does not) and `unlinkOk` (whether the
`unlink` call succeeds) are passed explicitly.  The separate
`filelock`-library handle release touches only the auxiliary
`.filelock` path and is not modelled. -/
def releaseLock (fs : FS) (_curPid : Int) (lockPath : String) (unlinkOk : Bool) : FS :=
  if fsHas fs lockPath then (if unlinkOk then fsDel fs lockPath else fs) else fs

/-- Canonical lock path used in concrete instances. -/
def lockName : String := ".odin/odin.lock"

/-- **C6, counterexample.** `release_lock` run by process 1 on a lock
file naming live process 999 *deletes* the lock file, refuting the claim
that a lock owned by a different live process is left in place. -/
theorem releaseLock_not_owner_counterexample :
    pyParseInt (pyStrip "999".data) = some 999 ∧ (999 : Int) ≠ 1 ∧
    fsGet (releaseLock [(lockName, "999")] 1 lockName true) lockName = none :=
  ⟨by decide, by decide, by decide⟩

/-- **C6, amended.** `release_lock` deletes the lock file whenever it
exists and the `unlink` succeeds, regardless of which process the file
names; other files are untouched; a missing lock file or a failing
`unlink` leaves the filesystem unchanged (and no case is an error). -/
theorem releaseLock_spec (fs : FS) (curPid : Int) (lockPath : String) (unlinkOk : Bool) :
    (fsHas fs lockPath = true → unlinkOk = true →
      fsGet (releaseLock fs curPid lockPath unlinkOk) lockPath = none) ∧
    (∀ m, m ≠ lockPath →
      fsGet (releaseLock fs curPid lockPath unlinkOk) m = fsGet fs m) ∧
    (fsHas fs lockPath = false → releaseLock fs curPid lockPath unlinkOk = fs) ∧
    (unlinkOk = false → releaseLock fs curPid lockPath unlinkOk = fs) := by
  refine ⟨?_, ?_, ?_, ?_⟩
  · intro hh hu
    simp [releaseLock, hh, hu, fsGet_fsDel_same]
  · intro m hm
    unfold releaseLock
    by_cases hh : fsHas fs lockPath <;> by_cases hu : unlinkOk <;>
      simp [hh, hu, fsGet_fsDel_other fs lockPath m hm]
  · intro hh
    simp [releaseLock, hh]
  · intro hu
    subst hu
    simp [releaseLock]

/-- Witness for the amended C6: with the lock present and `unlink`
succeeding, the file is gone afterwards (whoever owned it). -/
theorem releaseLock_spec_witness :
    fsGet (releaseLock [(lockName, "999")] 1 lockName true) lockName = none :=
  (releaseLock_spec [(lockName, "999")] 1 lockName true).1 (by decide) rfl

/-- **C10, counterexample.** With an *empty* lock file, `is_odin_running`
returns `False` from inside the read block and leaves the lock file in
place, refuting the claim that every not-a-live-odin outcome deletes the
lock file. -/
theorem isOdinRunning_empty_counterexample :
    (isOdinRunning [(lockName, "")] lockName ⟨fun _ => false, fun _ => none⟩).1 = false ∧
    (isOdinRunning [(lockName, "")] lockName ⟨fun _ => false, fun _ => none⟩).2 =
      [(lockName, "")] ∧
    fsGet [(lockName, "")] lockName = some "" :=
  ⟨by decide, by decide, by decide⟩

/-- **C10, amended.** When the lock file exists but does not identify a
live odin process, `is_odin_running` returns `False`, and it deletes the
lock file in every such case *except* the empty-file case, which returns
early and leaves the lock file in place; a live process whose command
line contains "odin" yields `True` with the filesystem unchanged. -/
theorem isOdinRunning_spec (fs : FS) (lockPath content : String) (w : ProcWorld)
    (hmem : fsGet fs lockPath = some content) :
    ((pyStrip content.data).isEmpty = true →
      isOdinRunning fs lockPath w = (false, fs)) ∧
    ((pyStrip content.data).isEmpty = false → pyParseInt (pyStrip content.data) = none →
      isOdinRunning fs lockPath w = (false, fsDel fs lockPath)) ∧
    (∀ pid, (pyStrip content.data).isEmpty = false →
      pyParseInt (pyStrip content.data) = some pid → w.pidExists pid = false →
      isOdinRunning fs lockPath w = (false, fsDel fs lockPath)) ∧
    (∀ pid, (pyStrip content.data).isEmpty = false →
      pyParseInt (pyStrip content.data) = some pid → w.pidExists pid = true →
      w.cmdline pid = none →
      isOdinRunning fs lockPath w = (false, fsDel fs lockPath)) ∧
    (∀ pid cmd, (pyStrip content.data).isEmpty = false →
      pyParseInt (pyStrip content.data) = some pid → w.pidExists pid = true →
      w.cmdline pid = some cmd → hasSubstr "odin".data (cmd.map pyToLower) = false →
      isOdinRunning fs lockPath w = (false, fsDel fs lockPath)) ∧
    (∀ pid cmd, (pyStrip content.data).isEmpty = false →
      pyParseInt (pyStrip content.data) = some pid → w.pidExists pid = true →
      w.cmdline pid = some cmd → hasSubstr "odin".data (cmd.map pyToLower) = true →
      isOdinRunning fs lockPath w = (true, fs)) := by
  refine ⟨?_, ?_, ?_, ?_, ?_, ?_⟩
  · intro he
    simp [isOdinRunning, hmem, he]
  · intro he hp
    simp [isOdinRunning, hmem, he, hp]
  · intro pid he hp hx
    simp [isOdinRunning, hmem, he, hp, hx]
  · intro pid he hp hx hc
    simp [isOdinRunning, hmem, he, hp, hx, hc]
  · intro pid cmd he hp hx hc hi
    simp [isOdinRunning, hmem, he, hp, hx, hc, hi]
  · intro pid cmd he hp hx hc hi
    simp [isOdinRunning, hmem, he, hp, hx, hc, hi]

/-- Witness for the amended C10: a lock file holding `"999"` for a dead
PID is deleted and the query answers `False`. -/
theorem isOdinRunning_spec_witness :
    isOdinRunning [(lockName, "999")] lockName ⟨fun _ => false, fun _ => none⟩ =
      (false, fsDel [(lockName, "999")] lockName) :=
  (isOdinRunning_spec [(lockName, "999")] lockName "999"
      ⟨fun _ => false, fun _ => none⟩ (by decide)).2.2.1 999 (by decide) (by decide) rfl

/-! ## Backup creation and rollback (`src/odin/backup.py`,
`src/agents/system/checkpoint.py`)

`create_backup` is modelled twice, at two levels of abstraction:

* as a state transformer over `FS` (for the atomicity claim): the
  serialized record, the checkpoint payloads etc. are opaque string
  parameters, and Boolean oracles stand for the success of each fallible
  I/O step;
* as an event-trace producer (for the temporal ordering claim), where
  each filesystem effect of the source, in source order, appends one
  event. -/

/-- The file names involved in one `create_backup` call:
`backup_<ts>.bak.tmp`, `backup_<ts>.bak.json`, `AI_CHECKPOINT.json` and
the learning log. -/
structure BackupNames where
  tmpFile : String
  canonFile : String
  ckptFile : String
  logFile : String

/-- Embedding of `SmartBackupManager.create_backup`
(`src/odin/backup.py:241-330`) over the filesystem model.  Steps 1–4
(checkpoint load, git diff, archive, project hash) read state and never
raise; `ser` is the serialized record they produce.  Then: the record is
written to the temp file (`serOk` = the `json.dump` write completes; a
failed write leaves partial bytes `part` in the temp file and raises),
renamed to the canonical name (`renameOk`), the checkpoint file is
rewritten (`ckOk`; a failure may leave partial bytes `ckPart` and
raises), and the learning log is appended (internally guarded, never
raises; `logOk` = whether the log write happened).  Any raise is caught
and re-raised as `BackupError`, modelled as result `none`. -/
def createBackupFS (fs : FS) (nm : BackupNames)
    (ser part ckNew ckPart logNew : String)
    (serOk renameOk ckOk logOk : Bool) : Option String × FS :=
  if !serOk then (none, fsSet fs nm.tmpFile part)
  else
    let fs1 := fsSet fs nm.tmpFile ser
    if !renameOk then (none, fs1)
    else
      let fs2 := fsSet (fsDel fs1 nm.tmpFile) nm.canonFile ser
      if !ckOk then (none, fsSet fs2 nm.ckptFile ckPart)
      else
        let fs3 := fsSet fs2 nm.ckptFile ckNew
        let fs4 := if logOk then fsSet fs3 nm.logFile logNew else fs3
        (some nm.canonFile, fs4)

/-- **C2.** `create_backup` is all-or-nothing on the canonical record
name: if the serialization write or the atomic rename fails, the call
errors and no file — partial or complete — exists under the canonical
backup filename (which was fresh, as it is timestamp-derived); while
before the rename nothing but the temp file has been touched.  On the
rename path the record appears under the canonical name with exactly the
fully serialized content. -/
theorem createBackup_atomic (fs : FS) (nm : BackupNames)
    (ser part ckNew ckPart logNew : String) (serOk renameOk ckOk logOk : Bool)
    (hfresh : fsGet fs nm.canonFile = none)
    (h1 : nm.canonFile ≠ nm.tmpFile) (h2 : nm.ckptFile ≠ nm.canonFile)
    (h3 : nm.logFile ≠ nm.canonFile) :
    ((serOk = false ∨ renameOk = false) →
      (createBackupFS fs nm ser part ckNew ckPart logNew serOk renameOk ckOk logOk).1 = none ∧
      fsGet (createBackupFS fs nm ser part ckNew ckPart logNew serOk renameOk ckOk logOk).2
        nm.canonFile = none ∧
      (∀ m, m ≠ nm.tmpFile →
        fsGet (createBackupFS fs nm ser part ckNew ckPart logNew serOk renameOk ckOk logOk).2 m =
          fsGet fs m)) ∧
    (serOk = true → renameOk = true →
      fsGet (createBackupFS fs nm ser part ckNew ckPart logNew serOk renameOk ckOk logOk).2
        nm.canonFile = some ser) := by
  constructor
  · rintro (h | h) <;> subst h
    · refine ⟨rfl, ?_, ?_⟩
      · rw [show (createBackupFS fs nm ser part ckNew ckPart logNew false renameOk ckOk logOk).2 =
            fsSet fs nm.tmpFile part from rfl]
        rw [fsGet_fsSet_other fs nm.tmpFile part nm.canonFile h1]
        exact hfresh
      · intro m hm
        rw [show (createBackupFS fs nm ser part ckNew ckPart logNew false renameOk ckOk logOk).2 =
            fsSet fs nm.tmpFile part from rfl]
        exact fsGet_fsSet_other fs nm.tmpFile part m hm
    · cases serOk with
      | false =>
        refine ⟨rfl, ?_, ?_⟩
        · rw [show (createBackupFS fs nm ser part ckNew ckPart logNew false false ckOk logOk).2 =
              fsSet fs nm.tmpFile part from rfl]
          rw [fsGet_fsSet_other fs nm.tmpFile part nm.canonFile h1]
          exact hfresh
        · intro m hm
          rw [show (createBackupFS fs nm ser part ckNew ckPart logNew false false ckOk logOk).2 =
              fsSet fs nm.tmpFile part from rfl]
          exact fsGet_fsSet_other fs nm.tmpFile part m hm
      | true =>
        refine ⟨rfl, ?_, ?_⟩
        · rw [show (createBackupFS fs nm ser part ckNew ckPart logNew true false ckOk logOk).2 =
              fsSet fs nm.tmpFile ser from rfl]
          rw [fsGet_fsSet_other fs nm.tmpFile ser nm.canonFile h1]
          exact hfresh
        · intro m hm
          rw [show (createBackupFS fs nm ser part ckNew ckPart logNew true false ckOk logOk).2 =
              fsSet fs nm.tmpFile ser from rfl]
          exact fsGet_fsSet_other fs nm.tmpFile ser m hm
  · intro hs hr
    subst hs
    subst hr
    have hcanon : fsGet (fsSet (fsDel (fsSet fs nm.tmpFile ser) nm.tmpFile) nm.canonFile ser)
        nm.canonFile = some ser := fsGet_fsSet_same _ _ _
    cases ckOk with
    | false =>
      rw [show (createBackupFS fs nm ser part ckNew ckPart logNew true true false logOk).2 =
          fsSet (fsSet (fsDel (fsSet fs nm.tmpFile ser) nm.tmpFile) nm.canonFile ser)
            nm.ckptFile ckPart from rfl]
      rw [fsGet_fsSet_other _ nm.ckptFile ckPart nm.canonFile (fun he => h2 he.symm)]
      exact hcanon
    | true =>
      cases logOk with
      | false =>
        rw [show (createBackupFS fs nm ser part ckNew ckPart logNew true true true false).2 =
            fsSet (fsSet (fsDel (fsSet fs nm.tmpFile ser) nm.tmpFile) nm.canonFile ser)
              nm.ckptFile ckNew from rfl]
        rw [fsGet_fsSet_other _ nm.ckptFile ckNew nm.canonFile (fun he => h2 he.symm)]
        exact hcanon
      | true =>
        rw [show (createBackupFS fs nm ser part ckNew ckPart logNew true true true true).2 =
            fsSet (fsSet (fsSet (fsDel (fsSet fs nm.tmpFile ser) nm.tmpFile) nm.canonFile ser)
              nm.ckptFile ckNew) nm.logFile logNew from rfl]
        rw [fsGet_fsSet_other _ nm.logFile logNew nm.canonFile (fun he => h3 he.symm)]
        rw [fsGet_fsSet_other _ nm.ckptFile ckNew nm.canonFile (fun he => h2 he.symm)]
        exact hcanon

/-- Witness for C2 at a concrete filesystem: a failing rename leaves
nothing under the canonical name. -/
theorem createBackup_atomic_witness :
    (createBackupFS [("a.py", "x=1")] ⟨"b.tmp", "b.bak.json", "ck.json", "log.json"⟩
        "REC" "PART" "CK" "CKP" "LOG" true false true true).1 = none ∧
    fsGet (createBackupFS [("a.py", "x=1")] ⟨"b.tmp", "b.bak.json", "ck.json", "log.json"⟩
        "REC" "PART" "CK" "CKP" "LOG" true false true true).2 "b.bak.json" = none := by
  have h := (createBackup_atomic [("a.py", "x=1")]
    ⟨"b.tmp", "b.bak.json", "ck.json", "log.json"⟩ "REC" "PART" "CK" "CKP" "LOG"
    true false true true (by decide) (by decide) (by decide) (by decide)).1
    (Or.inr rfl)
  exact ⟨h.1, h.2.1⟩

/-! ## Event traces for the rollback ordering claim -/

/-- One filesystem effect, in source order.  `write` is a write to a file
under the project root proper (checkpoint file, learning log);
`backupWrite`/`backupDelete` touch only the tool's backup directory;
`renameEv` is the atomic rename publishing a backup record; `gitApply`,
`extract` and `copyToProject` modify project files during restoration. -/
inductive FsEv where
  | write (n : String)
  | backupWrite (n : String)
  | backupDelete (n : String)
  | renameEv (src dst : String)
  | gitApply
  | extract (n : String)
  | copyToProject (n : String)
deriving DecidableEq, Repr

/-- Events that restore (i.e. modify) project content during a rollback. -/
def isRestoreEv : FsEv → Bool
  | .gitApply => true
  | .extract _ => true
  | .copyToProject _ => true
  | _ => false

/-- Events that modify any file under the project root proper (outside
the backup directory). -/
def isProjectMod : FsEv → Bool
  | .write _ => true
  | .gitApply => true
  | .extract _ => true
  | .copyToProject _ => true
  | _ => false

/-- Trace semantics of `SmartBackupManager.create_backup`
(`src/odin/backup.py:241-330`): temp-file write, atomic rename,
checkpoint rewrite, log append; the Boolean result is "no `BackupError`
raised".  Flags as in `createBackupFS`. -/
def createBackupTrace (nm : BackupNames) (serOk renameOk ckOk logOk : Bool) :
    List FsEv × Bool :=
  if !serOk then ([.backupWrite nm.tmpFile], false)
  else if !renameOk then ([.backupWrite nm.tmpFile], false)
  else if !ckOk then
    ([.backupWrite nm.tmpFile, .renameEv nm.tmpFile nm.canonFile, .write nm.ckptFile], false)
  else
    ([.backupWrite nm.tmpFile, .renameEv nm.tmpFile nm.canonFile, .write nm.ckptFile] ++
      (if logOk then [.write nm.logFile] else []), true)

/-- Trace semantics of `SmartBackupManager.rollback_to`
(`src/odin/backup.py:422-489`): resolve the record (`backupExists`);
create the safety backup — any `BackupError` is caught by the outer
`except` and the rollback returns `False` having restored nothing; then
restore the checkpoint file from the record, reverse-apply the git patch
(temp patch file written into the backup dir, applied, deleted), extract
the archived files, update the checkpoint (internally guarded, `updOk`),
and append the log. -/
def rollbackToTrace (nm : BackupNames) (backupExists : Bool)
    (serOk renameOk ckOk logOk : Bool) (hasCkpt gitAvail hasPatch : Bool)
    (patchTmp : String) (hasSnap : Bool) (restoredFiles : List String)
    (updOk logOk2 : Bool) : List FsEv × Bool :=
  if !backupExists then ([], false)
  else
    let safety := createBackupTrace nm serOk renameOk ckOk logOk
    if !safety.2 then (safety.1, false)
    else
      let ckRestore := if hasCkpt then [FsEv.write nm.ckptFile] else []
      let patchEvs := if gitAvail && hasPatch then
          [FsEv.backupWrite patchTmp, FsEv.gitApply, FsEv.backupDelete patchTmp] else []
      let snapEvs := if hasSnap then restoredFiles.map FsEv.extract else []
      let updEvs := if updOk then [FsEv.write nm.ckptFile] else []
      let logEvs := if logOk2 then [FsEv.write nm.logFile] else []
      (safety.1 ++ ckRestore ++ patchEvs ++ snapEvs ++ updEvs ++ logEvs, true)

/-- Trace semantics of `CheckpointAgent._create_checkpoint`
(`src/agents/system/checkpoint.py:130-216`): copy each tracked project
file into the checkpoint directory, then write `checkpoint.json` there;
any exception (`copyFailAt = some k`: the `k`-th copy raises; or a failed
metadata write) is caught and reported as `success = False`. -/
def createCheckpointTrace (files : List String) (copyFailAt : Option Nat)
    (metaOk : Bool) : List FsEv × Bool :=
  match copyFailAt with
  | some k => ((files.take k).map FsEv.backupWrite, false)
  | none =>
    if metaOk then ((files.map FsEv.backupWrite) ++ [FsEv.backupWrite "checkpoint.json"], true)
    else (files.map FsEv.backupWrite, false)

/-- Trace semantics of `CheckpointAgent._rollback`
(`src/agents/system/checkpoint.py:218-309`): missing metadata aborts with
no effect; then the safety checkpoint is created, and only if it reports
success are the backed-up files copied back over the project
(`restored` = the files actually copied; per-file failures are collected
but do not abort). -/
def agentRollbackTrace (metaExists : Bool) (files : List String)
    (copyFailAt : Option Nat) (metaOk : Bool) (restored : List String) :
    List FsEv × Bool :=
  if !metaExists then ([], false)
  else
    let safety := createCheckpointTrace files copyFailAt metaOk
    if !safety.2 then (safety.1, false)
    else (safety.1 ++ restored.map FsEv.copyToProject, true)

theorem createBackupTrace_no_restore (nm : BackupNames) (serOk renameOk ckOk logOk : Bool) :
    ∀ e ∈ (createBackupTrace nm serOk renameOk ckOk logOk).1, isRestoreEv e = false := by
  cases serOk <;> cases renameOk <;> cases ckOk <;> cases logOk <;>
    simp [createBackupTrace, isRestoreEv]

theorem createCheckpointTrace_no_projectMod (files : List String)
    (copyFailAt : Option Nat) (metaOk : Bool) :
    ∀ e ∈ (createCheckpointTrace files copyFailAt metaOk).1, isProjectMod e = false := by
  cases copyFailAt with
  | some k =>
    intro e he
    simp only [createCheckpointTrace, List.mem_map] at he
    obtain ⟨n, _, rfl⟩ := he
    rfl
  | none =>
    cases metaOk <;> intro e he <;>
      simp only [createCheckpointTrace, if_true, if_false, Bool.false_eq_true,
        List.mem_append, List.mem_map, List.mem_singleton] at he
    · obtain ⟨n, _, rfl⟩ := he
      rfl
    · rcases he with ⟨n, _, rfl⟩ | rfl <;> rfl

/-- **C1.** In both rollback implementations, the restore phase runs only
after the pre-rollback safety backup has been created, and a failed
safety backup aborts the whole rollback having restored nothing:

* `SmartBackupManager.rollback_to`: a missing record aborts with an empty
  trace (no safety backup, scenario 5); if `create_backup` raises, the
  rollback returns `False` and its trace is exactly the safety-attempt
  trace, which contains no restore event; on the success path the first
  two events are the temp-file write in the backup directory and the
  rename that publishes the safety record — every restore event comes
  after that rename.
* `CheckpointAgent._rollback`: missing metadata aborts with an empty
  trace; a failed safety checkpoint aborts with exactly the
  safety-attempt trace, which modifies no project file; on success the
  trace is the safety trace followed by the restore copies, so no project
  file is modified before the safety checkpoint is complete. -/
theorem rollback_safety_checkpoint_first (nm : BackupNames)
    (backupExists serOk renameOk ckOk logOk hasCkpt gitAvail hasPatch hasSnap updOk logOk2 : Bool)
    (patchTmp : String) (restoredFiles : List String)
    (metaExists : Bool) (files : List String) (copyFailAt : Option Nat) (metaOk : Bool)
    (restored : List String) :
    (backupExists = false →
      rollbackToTrace nm backupExists serOk renameOk ckOk logOk hasCkpt gitAvail hasPatch
        patchTmp hasSnap restoredFiles updOk logOk2 = ([], false)) ∧
    (backupExists = true → (createBackupTrace nm serOk renameOk ckOk logOk).2 = false →
      rollbackToTrace nm backupExists serOk renameOk ckOk logOk hasCkpt gitAvail hasPatch
        patchTmp hasSnap restoredFiles updOk logOk2 =
        ((createBackupTrace nm serOk renameOk ckOk logOk).1, false)) ∧
    (∀ e ∈ (createBackupTrace nm serOk renameOk ckOk logOk).1, isRestoreEv e = false) ∧
    ((rollbackToTrace nm backupExists serOk renameOk ckOk logOk hasCkpt gitAvail hasPatch
        patchTmp hasSnap restoredFiles updOk logOk2).2 = true →
      (rollbackToTrace nm backupExists serOk renameOk ckOk logOk hasCkpt gitAvail hasPatch
        patchTmp hasSnap restoredFiles updOk logOk2).1.take 2 =
        [FsEv.backupWrite nm.tmpFile, FsEv.renameEv nm.tmpFile nm.canonFile]) ∧
    (metaExists = false →
      agentRollbackTrace metaExists files copyFailAt metaOk restored = ([], false)) ∧
    (metaExists = true → (createCheckpointTrace files copyFailAt metaOk).2 = false →
      agentRollbackTrace metaExists files copyFailAt metaOk restored =
        ((createCheckpointTrace files copyFailAt metaOk).1, false)) ∧
    (∀ e ∈ (createCheckpointTrace files copyFailAt metaOk).1, isProjectMod e = false) ∧
    ((agentRollbackTrace metaExists files copyFailAt metaOk restored).2 = true →
      (agentRollbackTrace metaExists files copyFailAt metaOk restored).1 =
        (createCheckpointTrace files copyFailAt metaOk).1 ++
          restored.map FsEv.copyToProject) := by
  refine ⟨?_, ?_, createBackupTrace_no_restore nm serOk renameOk ckOk logOk, ?_, ?_, ?_,
    createCheckpointTrace_no_projectMod files copyFailAt metaOk, ?_⟩
  · intro h
    subst h
    rfl
  · intro h hf
    subst h
    simp [rollbackToTrace, hf]
  · intro hok
    cases backupExists with
    | false => simp [rollbackToTrace] at hok
    | true =>
      by_cases hs : (createBackupTrace nm serOk renameOk ckOk logOk).2 = true
      · have hshape : ∃ tail, (createBackupTrace nm serOk renameOk ckOk logOk).1 =
            FsEv.backupWrite nm.tmpFile :: FsEv.renameEv nm.tmpFile nm.canonFile :: tail := by
          cases serOk <;> cases renameOk <;> cases ckOk <;> cases logOk <;>
            first
              | exact ⟨_, rfl⟩
              | simp [createBackupTrace] at hs
        obtain ⟨tail, htail⟩ := hshape
        simp only [rollbackToTrace, hs, Bool.not_true, if_false, Bool.true_eq_false,
          Bool.not_false, if_true]
        simp [htail]
      · simp only [Bool.not_eq_true] at hs
        simp [rollbackToTrace, hs] at hok
  · intro h
    subst h
    rfl
  · intro h hf
    subst h
    simp [agentRollbackTrace, hf]
  · intro hok
    cases metaExists with
    | false => simp [agentRollbackTrace] at hok
    | true =>
      by_cases hs : (createCheckpointTrace files copyFailAt metaOk).2 = true
      · simp [agentRollbackTrace, hs]
      · simp only [Bool.not_eq_true] at hs
        simp [agentRollbackTrace, hs] at hok

/-- Witness for C1: with every step succeeding, the odin rollback's first
two events are the safety temp write and its publishing rename, and the
agent rollback's trace is its safety trace followed by the restore
copies. -/
theorem rollback_safety_checkpoint_first_witness :
    (rollbackToTrace ⟨"b.tmp", "b.bak.json", "ck.json", "log.json"⟩ true
        true true true true true true true "p.patch" true ["a.py"] true true).1.take 2 =
      [FsEv.backupWrite "b.tmp", FsEv.renameEv "b.tmp" "b.bak.json"] ∧
    (agentRollbackTrace true ["a.py"] none true ["a.py"]).1 =
      (createCheckpointTrace ["a.py"] none true).1 ++ [FsEv.copyToProject "a.py"] := by
  have h := rollback_safety_checkpoint_first ⟨"b.tmp", "b.bak.json", "ck.json", "log.json"⟩
    true true true true true true true true true true true "p.patch" ["a.py"]
    true ["a.py"] none true ["a.py"]
  exact ⟨h.2.2.2.1 (by decide), by simpa using h.2.2.2.2.2.2.2 (by decide)⟩

end Odin
